import Mathlib

/-!
Shallow embedding of `src/agent.py` (class `PatentScraper`) of the
`patent-scraper` repository, together with theorems settling the spec's
claims about its innovation-scoring pipeline.

Modelling conventions:
* A GitHub repository record (a JSON dict in the source) is the typed
  structure `Repo`, per the spec's data model: name, optional description,
  non-negative star count, ISO-8601 creation-timestamp string.
* Python exceptions are modelled as `Option`: `none` is an exception that
  propagates to the caller.
* Library calls external to the repository are parameters:
  `datetime.fromisoformat` becomes `parse : String → Option Int`
  (yielding the creation instant in epoch seconds, `none` on malformed
  input), `datetime.now` becomes `now : Int` (epoch seconds), and
  `requests.get` becomes `httpGet : String → HttpResponse`.
* Python's `timedelta.days` on `now - created` is floor division by
  86400 seconds, i.e. `Int.fdiv`.
* Python's `str.lower()` is `Char.toLower` mapped over the characters
  (the data in play is ASCII), and the substring test `kw in desc` is
  `hasSub`, whose correctness as a substring test is proved below.
-/

/-- A GitHub repository record, as consumed by the scraper
(`repo['created_at']`, `repo['stargazers_count']`,
`repo.get('description', '')`). -/
structure Repo where
  name : String
  description : Option String
  stargazers_count : Nat
  created_at : String
deriving Repr, DecidableEq

/-- An HTTP response as seen by `search_repos`: its status code and the
`items` field of its JSON body (`none` when the field is absent). -/
structure HttpResponse where
  status_code : Nat
  items : Option (List Repo)

/-- Replace every `'Z'` with `"+00:00"` in a character list, mirroring
`repo['created_at'].replace('Z', '+00:00')` (Python `str.replace`
replaces all occurrences). -/
def replaceZL : List Char → List Char
  | [] => []
  | c :: cs =>
    if c = 'Z' then '+' :: '0' :: '0' :: ':' :: '0' :: '0' :: replaceZL cs
    else c :: replaceZL cs

/-- String version of `replaceZL`. -/
def replaceZ (s : String) : String := ⟨replaceZL s.data⟩

/-- Does `hay` start with `needle`? (helper for the substring test). -/
def leadsWith : List Char → List Char → Bool
  | [], _ => true
  | _ :: _, [] => false
  | a :: as, b :: bs => a = b && leadsWith as bs

/-- Substring containment on character lists, mirroring Python's
`needle in hay` for strings. -/
def hasSubL (needle : List Char) : List Char → Bool
  | [] => leadsWith needle []
  | b :: bs => leadsWith needle (b :: bs) || hasSubL needle bs

/-- Substring containment on strings. -/
def hasSub (needle hay : String) : Bool := hasSubL needle.data hay.data

/-- Python's `str.lower()` on the ASCII data in play: lower-case each
character. -/
def pyLower (s : String) : String := ⟨s.data.map Char.toLower⟩

/-- The fixed innovation-keyword list of `assess_innovation_potential`. -/
def innovation_keywords : List String :=
  ["novel", "new", "innovative", "breakthrough", "unique", "original"]

/-- The fixed technology-relevance keyword list of
`assess_innovation_potential`. -/
def tech_keywords : List String :=
  ["ai", "machine learning", "blockchain", "automation", "algorithm"]

/-- The keyword loops of `assess_innovation_potential`: add `pts` points
for each keyword of `kws` occurring as a substring of `d`. -/
def keywordPoints (pts : Int) (d : String) : List String → Int
  | [] => 0
  | kw :: kws => (if hasSub kw d then pts else 0) + keywordPoints pts d kws

/-- The recency branch of `assess_innovation_potential`:
`if days_old < 90: score += 20`. -/
def recencyPoints (days_old : Int) : Int := if days_old < 90 then 20 else 0

/-- The star-momentum line of `assess_innovation_potential`:
`score += min(repo['stargazers_count'], 30)`. -/
def starPoints (stars : Nat) : Int := min (stars : Int) 30

/-- The description preprocessing of `assess_innovation_potential`:
`repo.get('description', '').lower()`. -/
def descOf (r : Repo) : String := pyLower (r.description.getD "")

/-- Age in whole days, `(datetime.now(tz) - created_date).days`:
floor division of the difference in seconds by 86400. -/
def daysOld (now created : Int) : Int := Int.fdiv (now - created) 86400

/-- `PatentScraper.assess_innovation_potential`. The timestamp parser
(`datetime.fromisoformat`) is the external parameter `parse`; a `none`
result is the parsing exception, which propagates (`none` overall).
On success the score is the sum of the recency, star and keyword
contributions, clamped by `min(score, 100)`. -/
def assess_innovation_potential (parse : String → Option Int) (now : Int)
    (repo : Repo) : Option Int :=
  match parse (replaceZ repo.created_at) with
  | none => none
  | some created =>
    some (min
      (recencyPoints (daysOld now created)
        + starPoints repo.stargazers_count
        + keywordPoints 10 (descOf repo) innovation_keywords
        + keywordPoints 8 (descOf repo) tech_keywords)
      100)

/-- The static factor table returned by
`PatentScraper.assess_patent_potential`. -/
structure PatentPotential where
  novelty : String
  non_obviousness : String
  utility : String
  enablement : String
deriving Repr, DecidableEq

/-- `PatentScraper.assess_patent_potential`: a static dict, independent
of the repository. -/
def assess_patent_potential (_repo : Repo) : PatentPotential :=
  { novelty := "High - unique approach"
    non_obviousness := "Medium - some existing solutions"
    utility := "High - practical applications"
    enablement := "High - well documented" }

/-- One retained entry of `analyze_github_innovations`. -/
structure Innovation where
  repo : Repo
  innovation_score : Int
  patent_potential : PatentPotential
  commercial_value : String
deriving Repr, DecidableEq

/-- `PatentScraper.search_repos`: issue the HTTP GET; on status 200
return the `items` field of the JSON body (empty list when absent),
otherwise return the empty list. -/
def search_repos (httpGet : String → HttpResponse) (query : String) :
    List Repo :=
  let response := httpGet query
  if response.status_code = 200 then response.items.getD [] else []

/-- The three fixed queries of `analyze_github_innovations`. -/
def innovative_queries : List String :=
  ["novel algorithm created:>2024-01-01 stars:>20",
   "new framework created:>2024-01-01 stars:>15",
   "innovative system created:>2024-01-01 stars:>10"]

/-- The inner loop of `analyze_github_innovations` over one query's
(already truncated) repository list: assess each repository and retain
it, annotated, when its score exceeds 70. A parse exception propagates. -/
def assessRepos (parse : String → Option Int) (now : Int) :
    List Repo → Option (List Innovation)
  | [] => some []
  | r :: rs =>
    match assess_innovation_potential parse now r with
    | none => none
    | some s =>
      match assessRepos parse now rs with
      | none => none
      | some rest =>
        if 70 < s then
          some ({ repo := r, innovation_score := s,
                  patent_potential := assess_patent_potential r,
                  commercial_value := "$" ++ toString (s * 10000) ++ "+" }
                :: rest)
        else some rest

/-- The outer loop of `analyze_github_innovations` over the queries:
search, keep the first 5 results (`repos[:5]`), assess them, and
concatenate the retained entries. -/
def analyzeQueries (parse : String → Option Int) (now : Int)
    (search : String → List Repo) : List String → Option (List Innovation)
  | [] => some []
  | q :: qs =>
    match assessRepos parse now ((search q).take 5) with
    | none => none
    | some xs =>
      match analyzeQueries parse now search qs with
      | none => none
      | some rest => some (xs ++ rest)

/-- `PatentScraper.analyze_github_innovations`. -/
def analyze_github_innovations (parse : String → Option Int) (now : Int)
    (httpGet : String → HttpResponse) : Option (List Innovation) :=
  analyzeQueries parse now (fun q => search_repos httpGet q)
    innovative_queries

/-! Concrete fixtures used by witnesses and counterexamples. -/

/-- A trivially succeeding timestamp parser (every string is instant 0). -/
def parse0 : String → Option Int := fun _ => some 0

/-- A trivially failing timestamp parser (models a malformed timestamp). -/
def parseNone : String → Option Int := fun _ => none

/-- The record of the spec's worked example: 5 stars, description
"a novel AI algorithm". With `parse0` and now = 864000 s its age is
exactly 10 days. -/
def repoC2 : Repo :=
  { name := "r", description := some "a novel AI algorithm",
    stargazers_count := 5, created_at := "2024-01-01T00:00:00Z" }

/-- A record scoring 100: fresh, 30 stars, keyword-rich description. -/
def repoHigh : Repo :=
  { name := "hi", description := some "novel innovative unique ai automation algorithm",
    stargazers_count := 30, created_at := "2024-01-01T00:00:00Z" }

/-- A record scoring 20 under `parse0` at now = 0: no stars, no
description. -/
def repoLow : Repo :=
  { name := "lo", description := none,
    stargazers_count := 0, created_at := "2024-01-01T00:00:00Z" }

/-- The annotated entry produced for `repoHigh` (score 100). -/
def innovHigh : Innovation :=
  { repo := repoHigh, innovation_score := 100,
    patent_potential := assess_patent_potential repoHigh,
    commercial_value := "$1000000+" }

/-- A stub HTTP layer answering 200 with two repositories. -/
def httpGet200 : String → HttpResponse :=
  fun _ => { status_code := 200, items := some [repoHigh, repoLow] }

/-- A stub HTTP layer answering 404. -/
def httpGet404 : String → HttpResponse :=
  fun _ => { status_code := 404, items := some [repoHigh] }

/-- A stub HTTP layer answering 200 with seven repositories, more than
the per-query truncation keeps. -/
def httpGetMany : String → HttpResponse :=
  fun _ => { status_code := 200, items := some (List.replicate 7 repoHigh) }

/-! Helper lemmas. -/

/-- Characterization of `leadsWith`: it decides whether the second list
starts with the first. -/
theorem leadsWith_iff (n h : List Char) : leadsWith n h = true ↔ ∃ t, h = n ++ t := by
  induction n generalizing h with
  | nil => simp [leadsWith]
  | cons a as ih =>
    cases h with
    | nil => simp [leadsWith]
    | cons b bs =>
      simp only [leadsWith, Bool.and_eq_true, decide_eq_true_eq, ih,
        List.cons_append, List.cons.injEq]
      constructor
      · rintro ⟨rfl, t, rfl⟩
        exact ⟨t, rfl, rfl⟩
      · rintro ⟨t, rfl, rfl⟩
        exact ⟨rfl, t, rfl⟩

/-- Characterization of `hasSubL`: it decides substring containment,
exactly Python's `needle in hay`. -/
theorem hasSubL_iff (n h : List Char) : hasSubL n h = true ↔ ∃ u v, h = u ++ n ++ v := by
  induction h with
  | nil =>
    simp only [hasSubL, leadsWith_iff]
    constructor
    · rintro ⟨t, ht⟩
      exact ⟨[], t, by simpa using ht⟩
    · rintro ⟨u, v, huv⟩
      rcases List.append_eq_nil.mp (List.append_eq_nil.mp huv.symm).1 with ⟨hu, hn⟩
      exact ⟨[], by simp [hn]⟩
  | cons b bs ih =>
    simp only [hasSubL, Bool.or_eq_true, leadsWith_iff, ih]
    constructor
    · rintro (⟨t, ht⟩ | ⟨u, v, huv⟩)
      · exact ⟨[], t, by simpa using ht⟩
      · exact ⟨b :: u, v, by simp [huv]⟩
    · rintro ⟨u, v, huv⟩
      cases u with
      | nil => exact Or.inl ⟨v, by simpa using huv⟩
      | cons x u =>
        simp only [List.cons_append, List.cons.injEq] at huv
        exact Or.inr ⟨u, v, huv.2⟩

/-- The keyword loop sums `pts` once per matching keyword. -/
theorem keywordPoints_eq_countP (pts : Int) (d : String) (kws : List String) :
    keywordPoints pts d kws = pts * ((kws.countP fun kw => hasSub kw d : Nat) : Int) := by
  induction kws with
  | nil => simp [keywordPoints]
  | cons kw kws ih =>
    by_cases hk : hasSub kw d
    · simp only [keywordPoints, hk, if_true, ih, List.countP_cons, hk]
      push_cast
      ring
    · simp only [keywordPoints, hk, if_false, ih, List.countP_cons, hk]
      push_cast
      ring

/-- The keyword contributions are non-negative when the per-match points
are. -/
theorem keywordPoints_nonneg {pts : Int} (hp : 0 ≤ pts) (d : String) (kws : List String) :
    0 ≤ keywordPoints pts d kws := by
  induction kws with
  | nil => simp [keywordPoints]
  | cons kw kws ih =>
    simp only [keywordPoints]
    have : (0:Int) ≤ if hasSub kw d then pts else 0 := by
      split <;> simp [hp]
    omega

/-- Unfolding of the assessor on a successfully parsed timestamp. -/
theorem assess_eq_of_parse {parse : String → Option Int} {now : Int} {r : Repo} {c : Int}
    (h : parse (replaceZ r.created_at) = some c) :
    assess_innovation_potential parse now r =
      some (min
        (recencyPoints (daysOld now c)
          + starPoints r.stargazers_count
          + keywordPoints 10 (descOf r) innovation_keywords
          + keywordPoints 8 (descOf r) tech_keywords)
        100) := by
  unfold assess_innovation_potential
  rw [h]

/-- The assessor fails exactly when the timestamp parse fails. -/
theorem assess_eq_none_of_parse {parse : String → Option Int} {now : Int} {r : Repo}
    (h : parse (replaceZ r.created_at) = none) :
    assess_innovation_potential parse now r = none := by
  unfold assess_innovation_potential
  rw [h]

/-- Every entry retained by the inner loop scored strictly above 70. -/
theorem assessRepos_mem_score (parse : String → Option Int) (now : Int) :
    ∀ (l : List Repo) (xs : List Innovation),
      assessRepos parse now l = some xs → ∀ x ∈ xs, 70 < x.innovation_score := by
  intro l
  induction l with
  | nil =>
    intro xs h x hx
    simp only [assessRepos, Option.some.injEq] at h
    subst h
    simp at hx
  | cons r rs ih =>
    intro xs h x hx
    cases ha : assess_innovation_potential parse now r with
    | none => simp [assessRepos, ha] at h
    | some s =>
      cases hrest : assessRepos parse now rs with
      | none => simp [assessRepos, ha, hrest] at h
      | some rest =>
        have hmem : ∀ y ∈ rest, 70 < y.innovation_score := ih rest hrest
        by_cases hs : 70 < s
        · simp only [assessRepos, ha, hrest, if_pos hs, Option.some.injEq] at h
          subst h
          rcases List.mem_cons.mp hx with rfl | hx
          · exact hs
          · exact hmem x hx
        · simp only [assessRepos, ha, hrest, if_neg hs, Option.some.injEq] at h
          subst h
          exact hmem x hx

/-- The inner loop retains at most one entry per assessed repository. -/
theorem assessRepos_length (parse : String → Option Int) (now : Int) :
    ∀ (l : List Repo) (xs : List Innovation),
      assessRepos parse now l = some xs → xs.length ≤ l.length := by
  intro l
  induction l with
  | nil =>
    intro xs h
    simp only [assessRepos, Option.some.injEq] at h
    subst h
    simp
  | cons r rs ih =>
    intro xs h
    cases ha : assess_innovation_potential parse now r with
    | none => simp [assessRepos, ha] at h
    | some s =>
      cases hrest : assessRepos parse now rs with
      | none => simp [assessRepos, ha, hrest] at h
      | some rest =>
        have hlen : rest.length ≤ rs.length := ih rest hrest
        by_cases hs : 70 < s
        · simp only [assessRepos, ha, hrest, if_pos hs, Option.some.injEq] at h
          subst h
          simp only [List.length_cons]
          omega
        · simp only [assessRepos, ha, hrest, if_neg hs, Option.some.injEq] at h
          subst h
          simp only [List.length_cons]
          omega

/-- Every entry retained by the outer loop scored strictly above 70. -/
theorem analyzeQueries_mem_score (parse : String → Option Int) (now : Int)
    (search : String → List Repo) :
    ∀ (qs : List String) (res : List Innovation),
      analyzeQueries parse now search qs = some res →
        ∀ x ∈ res, 70 < x.innovation_score := by
  intro qs
  induction qs with
  | nil =>
    intro res h x hx
    simp only [analyzeQueries, Option.some.injEq] at h
    subst h
    simp at hx
  | cons q qs ih =>
    intro res h x hx
    cases hxs : assessRepos parse now ((search q).take 5) with
    | none => simp [analyzeQueries, hxs] at h
    | some xs =>
      cases hrest : analyzeQueries parse now search qs with
      | none => simp [analyzeQueries, hxs, hrest] at h
      | some rest =>
        simp only [analyzeQueries, hxs, hrest, Option.some.injEq] at h
        subst h
        rcases List.mem_append.mp hx with hx | hx
        · exact assessRepos_mem_score parse now _ xs hxs x hx
        · exact ih rest hrest x hx

/-- The outer loop retains at most 5 entries per query. -/
theorem analyzeQueries_length (parse : String → Option Int) (now : Int)
    (search : String → List Repo) :
    ∀ (qs : List String) (res : List Innovation),
      analyzeQueries parse now search qs = some res →
        res.length ≤ 5 * qs.length := by
  intro qs
  induction qs with
  | nil =>
    intro res h
    simp only [analyzeQueries, Option.some.injEq] at h
    subst h
    simp
  | cons q qs ih =>
    intro res h
    cases hxs : assessRepos parse now ((search q).take 5) with
    | none => simp [analyzeQueries, hxs] at h
    | some xs =>
      cases hrest : analyzeQueries parse now search qs with
      | none => simp [analyzeQueries, hxs, hrest] at h
      | some rest =>
        simp only [analyzeQueries, hxs, hrest, Option.some.injEq] at h
        subst h
        have h1 : xs.length ≤ ((search q).take 5).length :=
          assessRepos_length parse now _ xs hxs
        have h2 : ((search q).take 5).length ≤ 5 := by
          rw [List.length_take]
          exact min_le_left _ _
        have h3 : rest.length ≤ 5 * qs.length := ih rest hrest
        simp only [List.length_append, List.length_cons]
        omega

/-- The outer loop only ever looks at the first five results of each
query: truncating the search beforehand changes nothing. -/
theorem analyzeQueries_take (parse : String → Option Int) (now : Int)
    (search : String → List Repo) :
    ∀ qs : List String,
      analyzeQueries parse now search qs =
        analyzeQueries parse now (fun q => (search q).take 5) qs := by
  intro qs
  induction qs with
  | nil => rfl
  | cons q qs ih =>
    simp only [analyzeQueries, List.take_take, Nat.min_self, ih]

/-- C1: for every repository record (any star count, description and
well-formed creation timestamp, i.e. any timestamp the parser accepts)
and every current time, `assess_innovation_potential` returns an integer
in [0, 100]: clamped above at 100 and, all contributions being
non-negative, never below 0. -/
theorem assess_innovation_potential_in_range (parse : String → Option Int)
    (now : Int) (r : Repo) (v : Int)
    (h : assess_innovation_potential parse now r = some v) :
    0 ≤ v ∧ v ≤ 100 := by
  cases hp : parse (replaceZ r.created_at) with
  | none =>
    rw [assess_eq_none_of_parse hp] at h
    cases h
  | some c =>
    rw [assess_eq_of_parse hp] at h
    have hv := Option.some.inj h
    subst hv
    have h1 : (0:Int) ≤ recencyPoints (daysOld now c) := by
      unfold recencyPoints
      split <;> norm_num
    have h2 : (0:Int) ≤ starPoints r.stargazers_count := by
      unfold starPoints
      exact le_min (Int.natCast_nonneg _) (by norm_num)
    have h3 := keywordPoints_nonneg (by norm_num : (0:Int) ≤ 10) (descOf r)
      innovation_keywords
    have h4 := keywordPoints_nonneg (by norm_num : (0:Int) ≤ 8) (descOf r)
      tech_keywords
    exact ⟨le_min (by omega) (by norm_num), min_le_right _ _⟩

/-- Witness for C1 at a concrete input: the worked-example record scores
51, which lies in [0, 100]. -/
theorem assess_innovation_potential_in_range_witness :
    assess_innovation_potential parse0 864000 repoC2 = some 51 ∧
      (0 ≤ (51:Int) ∧ (51:Int) ≤ 100) :=
  ⟨by decide, assess_innovation_potential_in_range parse0 864000 repoC2 51 (by decide)⟩

/-- C2 counterexample: a record created 10 days before the current time
(`parse0` puts creation at instant 0 and now = 864000 s = 10 days) with
5 stars and description "a novel AI algorithm" scores 51, not 43: the
description matches the technology keyword "algorithm" in addition to
"ai", so the technology contribution is 16, not 8. -/
theorem spec_worked_example_counterexample :
    assess_innovation_potential parse0 864000 repoC2 = some 51 ∧
      assess_innovation_potential parse0 864000 repoC2 ≠ some 43 :=
  ⟨by decide, by decide⟩

/-- C2 amended: for a record created 10 days before the current time,
with 5 stars and description "a novel AI algorithm",
`assess_innovation_potential` returns exactly 51 (20 recency + 5 stars
+ 10 for the single innovation-keyword match "novel" + 8 each for the
two technology-keyword matches "ai" and "algorithm"). -/
theorem spec_worked_example_amended_score (parse : String → Option Int)
    (now : Int) (r : Repo) (c : Int)
    (hp : parse (replaceZ r.created_at) = some c)
    (hd : daysOld now c = 10)
    (hs : r.stargazers_count = 5)
    (hdesc : r.description = some "a novel AI algorithm") :
    assess_innovation_potential parse now r = some 51 := by
  rw [assess_eq_of_parse hp, hd, hs]
  simp only [descOf, hdesc]
  decide

/-- Witness for the amended C2 at the concrete worked-example record. -/
theorem spec_worked_example_amended_score_witness :
    parse0 (replaceZ repoC2.created_at) = some 0 ∧
      daysOld 864000 0 = 10 ∧
      repoC2.stargazers_count = 5 ∧
      repoC2.description = some "a novel AI algorithm" ∧
      assess_innovation_potential parse0 864000 repoC2 = some 51 :=
  ⟨rfl, by decide, rfl, rfl,
   spec_worked_example_amended_score parse0 864000 repoC2 0 rfl (by decide) rfl rfl⟩

/-- C3: every record retained in the output of
`analyze_github_innovations` has an innovation score strictly above the
fixed threshold 70; no record scoring 70 or below appears. -/
theorem analyze_github_innovations_above_threshold (parse : String → Option Int)
    (now : Int) (httpGet : String → HttpResponse) (res : List Innovation)
    (h : analyze_github_innovations parse now httpGet = some res) :
    ∀ x ∈ res, 70 < x.innovation_score := by
  unfold analyze_github_innovations at h
  exact analyzeQueries_mem_score parse now _ innovative_queries res h

/-- Witness for C3: a concrete run retaining three entries, each of
score 100 > 70. -/
theorem analyze_github_innovations_above_threshold_witness :
    analyze_github_innovations parse0 0 httpGet200 =
        some [innovHigh, innovHigh, innovHigh] ∧
      ∀ x ∈ [innovHigh, innovHigh, innovHigh], 70 < x.innovation_score :=
  ⟨by decide,
   analyze_github_innovations_above_threshold parse0 0 httpGet200 _ (by decide)⟩

/-- C4: the star-count contribution to the innovation score is
`min(star_count, 30)`: exactly 30 for records with at least 30 stars,
and the star count itself below 30. -/
theorem assess_star_contribution (parse : String → Option Int) (now : Int)
    (r : Repo) (c : Int) (hp : parse (replaceZ r.created_at) = some c) :
    assess_innovation_potential parse now r =
      some (min
        (recencyPoints (daysOld now c) + min ((r.stargazers_count : Int)) 30
          + keywordPoints 10 (descOf r) innovation_keywords
          + keywordPoints 8 (descOf r) tech_keywords) 100) ∧
      (30 ≤ r.stargazers_count → min ((r.stargazers_count : Int)) 30 = 30) ∧
      (r.stargazers_count < 30 →
        min ((r.stargazers_count : Int)) 30 = (r.stargazers_count : Int)) := by
  refine ⟨assess_eq_of_parse hp, fun h => ?_, fun h => ?_⟩
  · exact min_eq_right (by exact_mod_cast h)
  · exact min_eq_left (le_of_lt (by exact_mod_cast h))

/-- Witness for C4 at a 30-star record. -/
theorem assess_star_contribution_witness :
    parse0 (replaceZ repoHigh.created_at) = some 0 ∧
      (assess_innovation_potential parse0 0 repoHigh =
        some (min
          (recencyPoints (daysOld 0 0) + min ((repoHigh.stargazers_count : Int)) 30
            + keywordPoints 10 (descOf repoHigh) innovation_keywords
            + keywordPoints 8 (descOf repoHigh) tech_keywords) 100) ∧
      (30 ≤ repoHigh.stargazers_count →
        min ((repoHigh.stargazers_count : Int)) 30 = 30) ∧
      (repoHigh.stargazers_count < 30 →
        min ((repoHigh.stargazers_count : Int)) 30 = (repoHigh.stargazers_count : Int))) :=
  ⟨rfl, assess_star_contribution parse0 0 repoHigh 0 rfl⟩

/-- C5: the recency contribution is exactly 20 points when the record's
age in days is strictly less than 90, and 0 points otherwise, for every
record whose timestamp the parser accepts. -/
theorem assess_recency_contribution (parse : String → Option Int) (now : Int)
    (r : Repo) (c : Int) (hp : parse (replaceZ r.created_at) = some c) :
    assess_innovation_potential parse now r =
      some (min
        (recencyPoints (daysOld now c) + starPoints r.stargazers_count
          + keywordPoints 10 (descOf r) innovation_keywords
          + keywordPoints 8 (descOf r) tech_keywords) 100) ∧
      (daysOld now c < 90 → recencyPoints (daysOld now c) = 20) ∧
      (90 ≤ daysOld now c → recencyPoints (daysOld now c) = 0) := by
  refine ⟨assess_eq_of_parse hp, fun h => ?_, fun h => ?_⟩
  · unfold recencyPoints
    exact if_pos h
  · unfold recencyPoints
    exact if_neg (by omega)

/-- Witness for C5 at a record 10 days old. -/
theorem assess_recency_contribution_witness :
    parse0 (replaceZ repoC2.created_at) = some 0 ∧
      (assess_innovation_potential parse0 864000 repoC2 =
        some (min
          (recencyPoints (daysOld 864000 0) + starPoints repoC2.stargazers_count
            + keywordPoints 10 (descOf repoC2) innovation_keywords
            + keywordPoints 8 (descOf repoC2) tech_keywords) 100) ∧
      (daysOld 864000 0 < 90 → recencyPoints (daysOld 864000 0) = 20) ∧
      (90 ≤ daysOld 864000 0 → recencyPoints (daysOld 864000 0) = 0)) :=
  ⟨rfl, assess_recency_contribution parse0 864000 repoC2 0 rfl⟩

/-- C6: for every query, a non-200 HTTP response makes `search_repos`
return the empty list (the function is total, so it never raises), and
a 200 response makes it return the response's item list, with the empty
list when the field is absent. -/
theorem search_repos_status_behavior (httpGet : String → HttpResponse)
    (query : String) :
    (¬ (httpGet query).status_code = 200 → search_repos httpGet query = []) ∧
    ((httpGet query).status_code = 200 →
      search_repos httpGet query = (httpGet query).items.getD []) := by
  constructor
  · intro h
    simp [search_repos, h]
  · intro h
    simp [search_repos, h]

/-- Witness for C6: a 404 response yields `[]`, a 200 response yields
its item list. -/
theorem search_repos_status_behavior_witness :
    (¬ (httpGet404 "q").status_code = 200 ∧ search_repos httpGet404 "q" = []) ∧
    ((httpGet200 "q").status_code = 200 ∧
      search_repos httpGet200 "q" = [repoHigh, repoLow]) :=
  ⟨⟨by decide, (search_repos_status_behavior httpGet404 "q").1 (by decide)⟩,
   ⟨rfl, ((search_repos_status_behavior httpGet200 "q").2 rfl).trans rfl⟩⟩

/-- C7: when the creation-timestamp string is malformed (the parser
rejects it after the Z-replacement), `assess_innovation_potential`
fails and the failure propagates to the caller (`none`); when the
parser accepts it, the assessor succeeds, so the parse is the only
error path. -/
theorem assess_parse_error_propagates (parse : String → Option Int)
    (now : Int) (r : Repo) :
    (parse (replaceZ r.created_at) = none →
      assess_innovation_potential parse now r = none) ∧
    (∀ c, parse (replaceZ r.created_at) = some c →
      (assess_innovation_potential parse now r).isSome = true) := by
  constructor
  · exact fun h => assess_eq_none_of_parse h
  · intro c h
    rw [assess_eq_of_parse h]
    rfl

/-- Witness for C7: a failing parser makes the assessor fail, a
succeeding parser makes it succeed. -/
theorem assess_parse_error_propagates_witness :
    assess_innovation_potential parseNone 0 repoC2 = none ∧
      (assess_innovation_potential parse0 0 repoC2).isSome = true :=
  ⟨(assess_parse_error_propagates parseNone 0 repoC2).1 rfl,
   (assess_parse_error_propagates parse0 0 repoC2).2 0 rfl⟩

/-- C8: keyword matching is case-insensitive and substring-based: each
of the 6 innovation keywords occurring as a substring of the
lower-cased description adds 10 points and each of the 5 technology
keywords adds 8 points; `hasSub` is exactly substring occurrence, and
the lower-cased description "INNOVATIVE" matches the keyword
"innovative". -/
theorem assess_keyword_matching (parse : String → Option Int) (now : Int)
    (r : Repo) (c : Int) (hp : parse (replaceZ r.created_at) = some c) :
    assess_innovation_potential parse now r =
      some (min
        (recencyPoints (daysOld now c) + starPoints r.stargazers_count
          + 10 * ((innovation_keywords.countP fun kw => hasSub kw (descOf r) : Nat) : Int)
          + 8 * ((tech_keywords.countP fun kw => hasSub kw (descOf r) : Nat) : Int))
        100) ∧
      (∀ needle hay : String, hasSub needle hay = true ↔
        ∃ u v, hay.data = u ++ needle.data ++ v) ∧
      hasSub "innovative" (pyLower "INNOVATIVE") = true := by
  refine ⟨?_, fun needle hay => hasSubL_iff needle.data hay.data, by decide⟩
  rw [assess_eq_of_parse hp, keywordPoints_eq_countP, keywordPoints_eq_countP]

/-- Witness for C8 at the worked-example record (whose description
matches one innovation keyword and two technology keywords). -/
theorem assess_keyword_matching_witness :
    parse0 (replaceZ repoC2.created_at) = some 0 ∧
      (assess_innovation_potential parse0 864000 repoC2 =
        some (min
          (recencyPoints (daysOld 864000 0) + starPoints repoC2.stargazers_count
            + 10 * ((innovation_keywords.countP fun kw => hasSub kw (descOf repoC2) : Nat) : Int)
            + 8 * ((tech_keywords.countP fun kw => hasSub kw (descOf repoC2) : Nat) : Int))
          100) ∧
      (∀ needle hay : String, hasSub needle hay = true ↔
        ∃ u v, hay.data = u ++ needle.data ++ v) ∧
      hasSub "innovative" (pyLower "INNOVATIVE") = true) :=
  ⟨rfl, assess_keyword_matching parse0 864000 repoC2 0 rfl⟩

/-- C9: the innovation score is monotone non-decreasing in the star
count: two records identical except for star count receive scores in
the same order as their star counts, for every current time. -/
theorem assess_monotone_in_stars (parse : String → Option Int) (now : Int)
    (r : Repo) (s₁ s₂ : Nat) (v₁ v₂ : Int) (hle : s₁ ≤ s₂)
    (h₁ : assess_innovation_potential parse now
      { r with stargazers_count := s₁ } = some v₁)
    (h₂ : assess_innovation_potential parse now
      { r with stargazers_count := s₂ } = some v₂) :
    v₁ ≤ v₂ := by
  cases hp : parse (replaceZ r.created_at) with
  | none =>
    rw [assess_eq_none_of_parse (r := { r with stargazers_count := s₁ }) hp] at h₁
    cases h₁
  | some c =>
    have e₁ : descOf { r with stargazers_count := s₁ } = descOf r := rfl
    have e₂ : descOf { r with stargazers_count := s₂ } = descOf r := rfl
    have f₁ : ({ r with stargazers_count := s₁ } : Repo).stargazers_count = s₁ := rfl
    have f₂ : ({ r with stargazers_count := s₂ } : Repo).stargazers_count = s₂ := rfl
    rw [assess_eq_of_parse (r := { r with stargazers_count := s₁ }) hp, e₁, f₁] at h₁
    rw [assess_eq_of_parse (r := { r with stargazers_count := s₂ }) hp, e₂, f₂] at h₂
    have hv₁ := Option.some.inj h₁
    have hv₂ := Option.some.inj h₂
    subst hv₁
    subst hv₂
    refine min_le_min (add_le_add (add_le_add (add_le_add le_rfl ?_) le_rfl) le_rfl) le_rfl
    unfold starPoints
    exact min_le_min (by exact_mod_cast hle) le_rfl

/-- Witness for C9: raising the worked-example record's stars from 5 to
40 raises the score from 51 to 76. -/
theorem assess_monotone_in_stars_witness :
    (5:Nat) ≤ 40 ∧
      assess_innovation_potential parse0 864000
        { repoC2 with stargazers_count := 5 } = some 51 ∧
      assess_innovation_potential parse0 864000
        { repoC2 with stargazers_count := 40 } = some 76 ∧
      (51:Int) ≤ 76 :=
  ⟨by decide, by decide, by decide,
   assess_monotone_in_stars parse0 864000 repoC2 5 40 51 76
     (by decide) (by decide) (by decide)⟩

/-- C10: `analyze_github_innovations` assesses at most the first 5
repositories of each of its 3 fixed queries: its result holds at most
15 entries, and pre-truncating every search result to its first 5
repositories leaves the result unchanged, so later repositories are
never assessed or retained. -/
theorem analyze_github_innovations_take_five (parse : String → Option Int)
    (now : Int) (httpGet : String → HttpResponse) :
    (∀ res, analyze_github_innovations parse now httpGet = some res →
      res.length ≤ 15) ∧
    analyze_github_innovations parse now httpGet =
      analyzeQueries parse now
        (fun q => (search_repos httpGet q).take 5) innovative_queries := by
  constructor
  · intro res h
    unfold analyze_github_innovations at h
    have hlen := analyzeQueries_length parse now (fun q => search_repos httpGet q)
      innovative_queries res h
    have hq : (5 : Nat) * innovative_queries.length = 15 := rfl
    omega
  · unfold analyze_github_innovations
    exact analyzeQueries_take parse now (fun q => search_repos httpGet q)
      innovative_queries

/-- Witness for C10: with seven search hits per query, exactly 15
entries (5 per query) are retained, and the truncated search gives the
same result. -/
theorem analyze_github_innovations_take_five_witness :
    analyze_github_innovations parse0 0 httpGetMany =
        some (List.replicate 15 innovHigh) ∧
      (List.replicate 15 innovHigh : List Innovation).length ≤ 15 ∧
      analyze_github_innovations parse0 0 httpGetMany =
        analyzeQueries parse0 0
          (fun q => (search_repos httpGetMany q).take 5) innovative_queries :=
  ⟨by decide,
   (analyze_github_innovations_take_five parse0 0 httpGetMany).1 _ (by decide),
   (analyze_github_innovations_take_five parse0 0 httpGetMany).2⟩
